import Mathlib

/-!
Verification development for the elara interpreter core
(`interpreter/command.go` and its collaborators).

The Go source is shallowly embedded: each `Command` variant of
`interpreter/command.go` becomes a constructor of `Command`, its `Exec`
method becomes one arm of the fuel-indexed evaluator `exec`, and the Go
panics become constructors of `Err`.  Host `int64` arithmetic is modelled
on `Int` with an explicit two's-complement wrap at 64 bits.  Parts of the
interpreter that live outside the provided sources (the `Context`,
`Type`, `Value`, `Function` helpers, the parser and the batch driver) are
modelled from the specification; each such definition carries a doc
comment saying so.
-/

namespace Elara

/-- Binary operators supported by lowering
(`ExpressionToCommand`, cases `lexer.Add`, `lexer.Subtract`,
`lexer.Multiply`, `lexer.Slash`).  In the Go source each operator is
lowered to a fixed closure; here the four closures are represented by a
tag interpreted by `applyBinOp`. -/
inductive BinOp where
  | add
  | sub
  | mul
  | div
deriving DecidableEq, Repr

mutual

/-- The interpreter's `Type`: a name together with the table of member
functions.  Modelled from the spec: the `Type` struct is not under
`src/`; §3 gives `{name, assignability predicate, mapping from
member-function name to Function}`, with assignability by nominal name
equality (§4.4), so the name string determines the predicate. -/
inductive Ty where
  | mk (name : String) (functions : List (String × Function))

/-- The dynamically-typed payload of a `Value` (Go: `interface{}` field
`Value.Value`).  Go type assertions such as `left.(int64)` and
`condition.Value.(bool)` become pattern matches on this type.  Float
payloads carry the literal text only; no floating-point arithmetic
occurs in the embedded fragment. -/
inductive Payload where
  | int (n : Int)
  | float (lit : String)
  | bool (b : Bool)
  | str (s : String)
  | fn (f : Function)

/-- The interpreter's `Value`: `{Type tag, payload}`.  Modelled from the
spec (§3): the `Value` struct is not under `src/`; note it has no
receiver field — a function-valued `Value` carries only the `Function`. -/
inductive Value where
  | mk (type : Ty) (payload : Payload)

/-- The interpreter's `Function`: signature plus body `Command`, exactly
the fields the lowering in `command.go` constructs
(`Function{Signature: ..., Body: ...}`). -/
inductive Function where
  | mk (signature : Signature) (body : Command)

/-- A function signature: ordered parameters (name, declared type) and a
return type (never checked at run time, per the spec §4.3). -/
inductive Signature where
  | mk (parameters : List (String × Ty)) (returnType : Ty)

/-- The `Command` variants of `interpreter/command.go`:
`DefineVarCommand`, `AssignmentCommand`, `VariableCommand`,
`InvocationCommand`, `LiteralCommand`, `BinaryOperatorCommand`,
`BlockCommand`, `ContextCommand` (member access), `IfElseCommand`.
`AbstractCommand` (an arbitrary Go closure) is unused by lowering and
is not embedded. -/
inductive Command where
  | defineVar (name : String) (mutable : Bool) (type : Ty) (value : Command)
  | assignment (name : String) (value : Command)
  | varRef (name : String)
  | invocation (invoking : Command) (args : List Command)
  | literal (value : Value)
  | binaryOp (lhs : Command) (op : BinOp) (rhs : Command)
  | block (lines : List Command)
  | context (receiver : Command) (member : String)
  | ifElse (condition : Command) (ifBranch : Command) (elseBranch : Option Command)

end

/-- Name of a `Ty`. -/
def Ty.name : Ty → String
  | .mk n _ => n

/-- Member-function table of a `Ty`. -/
def Ty.functions : Ty → List (String × Function)
  | .mk _ fs => fs

/-- Type tag of a `Value`. -/
def Value.type : Value → Ty
  | .mk t _ => t

/-- Payload of a `Value`. -/
def Value.payload : Value → Payload
  | .mk _ p => p

/-- Body of a `Function`. -/
def Function.body : Function → Command
  | .mk _ b => b

/-- Parameters of a `Function`'s signature. -/
def Function.parameters : Function → List (String × Ty)
  | .mk (.mk ps _) _ => ps

/-- Assignability (Go `Type.Accepts`).  Modelled from the spec (§4.4,
not under `src/`): "Type A accepts Value of Type B iff B is nominally
the same Type as A, or A is the universal `Any` Type". -/
def Ty.Accepts (a : Ty) (b : Ty) : Bool :=
  a.name == "Any" || a.name == b.name

/-- The universal `Any` type (modelled from the spec §3/§4.4). -/
def AnyType : Ty := .mk "Any" []

/-- The `Int` type tag used by lowering for integer literals and by the
arithmetic closures. -/
def IntType : Ty := .mk "Int" []

/-- The `Float` type tag used by lowering for float literals. -/
def FloatType : Ty := .mk "Float" []

/-- The `Boolean` type tag used by lowering for boolean literals. -/
def BooleanType : Ty := .mk "Boolean" []

/-- The `String` type tag used by lowering for string literals. -/
def StringType : Ty := .mk "String" []

/-- `FunctionType` (Go: `FunctionType(name, fun)`).  Modelled from the
spec (§4.4, not under `src/`): "a derived Type created per function
value solely so the function can be carried as a typed Value"; the
claims under verification never inspect its name, so it is fixed. -/
def FunctionType (_name : Option String) (_f : Function) : Ty :=
  .mk "Function" []

/-- Convenience constructor mirroring the test helper
`interpreter.IntValue`. -/
def IntValue (n : Int) : Value := .mk IntType (.int n)

/-- A `Variable` (spec §3): name, mutability flag, declared type,
current value. -/
structure Variable where
  name : String
  mutable : Bool
  type : Ty
  value : Value

/-- A `Context` frame chain (spec §3/§4.5, modelled from the spec: the
`Context` struct is not under `src/`): per-frame variable bindings,
parameter bindings of the active call, the special receiver binding,
and an optional parent for upward lookup. -/
inductive Ctx where
  | mk (vars : List (String × Variable)) (params : List (String × Value))
      (receiver : Option Value) (parent : Option Ctx)

/-- Parent frame of a context. -/
def Ctx.parent : Ctx → Option Ctx
  | .mk _ _ _ p => p

/-- Variable bindings of the top frame. -/
def Ctx.vars : Ctx → List (String × Variable)
  | .mk vs _ _ _ => vs

/-- `Context.FindVariable` (modelled from the spec §4.5): look in the
current frame's variable bindings, else walk to the parent; first match
wins. -/
def findVariable : Ctx → String → Option Variable
  | .mk vars _ _ parent, n =>
    match List.lookup n vars with
    | some v => some v
    | none =>
      match parent with
      | some p => findVariable p n
      | none => none

/-- `Context.FindParameter` (modelled from the spec §3/§4.5): look in
the active call's parameter bindings, with the same upward fallback as
all context lookups. -/
def findParameter : Ctx → String → Option Value
  | .mk _ params _ parent, n =>
    match List.lookup n params with
    | some v => some v
    | none =>
      match parent with
      | some p => findParameter p n
      | none => none

/-- `Context.DefineVariable` (modelled from the spec §4.3): create the
binding in the *current* frame.  Shadowing cons plus first-match lookup
models the Go map overwrite observationally. -/
def defineVariable (ctx : Ctx) (n : String) (v : Variable) : Ctx :=
  match ctx with
  | .mk vars params recv parent => .mk ((n, v) :: vars) params recv parent

/-- Replace the first binding named `n` in an association list with a
variable holding the new value. -/
def updateFirstVar : List (String × Variable) → String → Value → List (String × Variable)
  | [], _, _ => []
  | (m, var) :: rest, n, v =>
    if m == n then (m, { var with value := v }) :: rest
    else (m, var) :: updateFirstVar rest n v

/-- The in-place mutation `variable.Value = value` of
`AssignmentCommand.Exec`: update the variable in the innermost frame of
the chain that binds the name. -/
def assignVariable : Ctx → String → Value → Ctx
  | .mk vars params recv parent, n, v =>
    if (List.lookup n vars).isSome then
      .mk (updateFirstVar vars n v) params recv parent
    else
      match parent with
      | some p => .mk vars params recv (some (assignVariable p n v))
      | none => .mk vars params recv none

/-- The run-time failures of the evaluator.  Each constructor models one
Go `panic` site of `interpreter/command.go` (or of the modelled
helpers): the spec's error kinds plus the host-level faults `nilPanic`
(dereference of a nil `*Value`), `divByZero` (host integer division by
zero) and `outOfFuel` (host stack exhaustion, spec §5). -/
inductive Err where
  | undefinedVariable (name : String)
  | immutableAssignment (name : String)
  | typeMismatch
  | undefinedMember (member : String) (typeName : String)
  | notInvokable
  | operandTypeError
  | conditionTypeError
  | arityMismatch
  | nilPanic
  | divByZero
  | outOfFuel
deriving DecidableEq, Repr

/-- Result of executing one command: a run-time failure, or the updated
context chain together with the command's optional value (Go:
`*Value`, possibly nil). -/
abbrev Res := Except Err (Ctx × Option Value)

/-- Two's-complement wrap at 64 bits: the behaviour of host `int64`
arithmetic used by the Go operator closures. -/
def wrap64 (x : Int) : Int :=
  Int.emod (x + 9223372036854775808) 18446744073709551616 - 9223372036854775808

/-- The four operator closures built by `ExpressionToCommand`
(`lexer.Add` / `Subtract` / `Multiply` / `Slash` cases): both payloads
must be integer-tagged; the result is the `Int`-tagged host-`int64`
combination.  Division truncates toward zero (`Int.tdiv`), wrapping like
the host on overflow; a zero divisor is the host's division fault. -/
def applyBinOp (op : BinOp) (a b : Int) : Except Err Value :=
  match op with
  | .add => .ok (.mk IntType (.int (wrap64 (a + b))))
  | .sub => .ok (.mk IntType (.int (wrap64 (a - b))))
  | .mul => .ok (.mk IntType (.int (wrap64 (a * b))))
  | .div =>
    if b == 0 then .error .divByZero
    else .ok (.mk IntType (.int (wrap64 (Int.tdiv a b))))

mutual

/-- The evaluator: `Command.Exec(ctx)` of `interpreter/command.go`,
fuel-indexed to model the host call stack (spec §5: evaluation recurses
with the tree's shape; exhaustion is fatal).  Each arm is the direct
transliteration of the corresponding `Exec` method; Go's single mutable
context becomes threaded state. -/
def exec : Nat → Command → Ctx → Res
  | 0, _, _ => .error .outOfFuel
  | fuel + 1, .defineVar name mtb ty value, ctx =>
      -- DefineVarCommand.Exec: evaluate, deref `value.Type`, Accepts
      -- check, DefineVariable in the current frame, return nil.
      match exec fuel value ctx with
      | .error e => .error e
      | .ok (_, none) => .error .nilPanic
      | .ok (ctx1, some v) =>
        if ty.Accepts v.type then
          .ok (defineVariable ctx1 name ⟨name, mtb, ty, v⟩, none)
        else .error .typeMismatch
  | fuel + 1, .assignment name value, ctx =>
      -- AssignmentCommand.Exec: find, mutability check, evaluate,
      -- Accepts check, mutate in place, return nil.
      match findVariable ctx name with
      | none => .error (.undefinedVariable name)
      | some var =>
        if !var.mutable then .error (.immutableAssignment name)
        else
          match exec fuel value ctx with
          | .error e => .error e
          | .ok (_, none) => .error .nilPanic
          | .ok (ctx1, some v) =>
            if var.type.Accepts v.type then
              .ok (assignVariable ctx1 name v, none)
            else .error .typeMismatch
  | _ + 1, .varRef name, ctx =>
      -- VariableCommand.Exec: variables first, then parameters.
      match findVariable ctx name with
      | some var => .ok (ctx, some var.value)
      | none =>
        match findParameter ctx name with
        | some v => .ok (ctx, some v)
        | none => .error (.undefinedVariable name)
  | fuel + 1, .invocation invoking args, ctx =>
      -- InvocationCommand.Exec: the `isContext` type switch, the
      -- NotInvokable check on the invoked value, then either the direct
      -- call (nil receiver) or the member-dispatch path, which
      -- re-evaluates the receiver twice more and re-does the lookup.
      match invoking with
      | .context recvCmd member =>
        match exec fuel (.context recvCmd member) ctx with
        | .error e => .error e
        | .ok (_, none) => .error .nilPanic
        | .ok (ctx1, some val) =>
          match val.payload with
          | .fn _ =>
            match exec fuel recvCmd ctx1 with
            | .error e => .error e
            | .ok (_, none) => .error .nilPanic
            | .ok (ctx2, some recv) =>
              match List.lookup member recv.type.functions with
              | none => .error (.undefinedMember member recv.type.name)
              | some function =>
                match exec fuel recvCmd ctx2 with
                | .error e => .error e
                | .ok (ctx3, recvVal) => invoke fuel function ctx3 recvVal args
          | _ => .error .notInvokable
      | _ =>
        match exec fuel invoking ctx with
        | .error e => .error e
        | .ok (_, none) => .error .nilPanic
        | .ok (ctx1, some val) =>
          match val.payload with
          | .fn f => invoke fuel f ctx1 none args
          | _ => .error .notInvokable
  | _ + 1, .literal v, ctx => .ok (ctx, some v)
  | fuel + 1, .binaryOp lhs op rhs, ctx =>
      -- BinaryOperatorCommand.Exec: strict, left first, then the
      -- operator closure's int64 assertions (left before right).
      match exec fuel lhs ctx with
      | .error e => .error e
      | .ok (ctx1, l) =>
        match exec fuel rhs ctx1 with
        | .error e => .error e
        | .ok (ctx2, r) =>
          match l with
          | none => .error .nilPanic
          | some lv =>
            match lv.payload with
            | .int a =>
              match r with
              | none => .error .nilPanic
              | some rv =>
                match rv.payload with
                | .int b =>
                  match applyBinOp op a b with
                  | .error e => .error e
                  | .ok v => .ok (ctx2, some v)
                | _ => .error .operandTypeError
            | _ => .error .operandTypeError
  | fuel + 1, .block lines, ctx => execBlock fuel lines ctx
  | fuel + 1, .context recvCmd member, ctx =>
      -- ContextCommand.Exec: evaluate receiver, table lookup, wrap the
      -- bare Function in a fresh Value (no receiver attached).
      match exec fuel recvCmd ctx with
      | .error e => .error e
      | .ok (_, none) => .error .nilPanic
      | .ok (ctx1, some recv) =>
        match List.lookup member recv.type.functions with
        | none => .error (.undefinedMember member recv.type.name)
        | some function =>
          .ok (ctx1, some (.mk (FunctionType (some member) function) (.fn function)))
  | fuel + 1, .ifElse condition ifBranch elseBranch, ctx =>
      -- IfElseCommand.Exec: boolean assertion on the condition payload,
      -- then the matching branch (or nil without an else branch).
      match exec fuel condition ctx with
      | .error e => .error e
      | .ok (_, none) => .error .nilPanic
      | .ok (ctx1, some cond) =>
        match cond.payload with
        | .bool true => exec fuel ifBranch ctx1
        | .bool false =>
          match elseBranch with
          | some e => exec fuel e ctx1
          | none => .ok (ctx1, none)
        | _ => .error .conditionTypeError

/-- `BlockCommand.Exec`: run the lines in order; the result is the last
line's result, `none` for an empty block. -/
def execBlock : Nat → List Command → Ctx → Res
  | 0, _, _ => .error .outOfFuel
  | _ + 1, [], ctx => .ok (ctx, none)
  | fuel + 1, line :: rest, ctx =>
    match exec fuel line ctx with
    | .error e => .error e
    | .ok (ctx1, v) =>
      match rest with
      | [] => .ok (ctx1, v)
      | _ => execBlock fuel rest ctx1

/-- Evaluate an argument list in order, threading the context.  Each
argument must produce a value to be bound to a parameter. -/
def execArgs : Nat → List Command → Ctx → Except Err (Ctx × List Value)
  | 0, _, _ => .error .outOfFuel
  | _ + 1, [], ctx => .ok (ctx, [])
  | fuel + 1, a :: rest, ctx =>
    match exec fuel a ctx with
    | .error e => .error e
    | .ok (_, none) => .error .nilPanic
    | .ok (ctx1, some v) =>
      match execArgs fuel rest ctx1 with
      | .error e => .error e
      | .ok (ctx2, vs) => .ok (ctx2, v :: vs)

/-- `Function.Exec(ctx, receiver, args)`.  Modelled from the spec
(§4.3, not under `src/`): evaluate the arguments in the caller's
context, check arity (mismatch is a fatal invocation error), create a
fresh frame binding each parameter name to its argument value
positionally with the receiver as the frame's special receiver binding,
evaluate the body there, and return its result.  The embedded
`Function` carries no captured defining context (the struct built by
lowering has only `Signature` and `Body`), so the frame's parent is the
context the caller passes. -/
def invoke : Nat → Function → Ctx → Option Value → List Command → Res
  | 0, _, _, _, _ => .error .outOfFuel
  | fuel + 1, f, ctx, recv, args =>
    match execArgs fuel args ctx with
    | .error e => .error e
    | .ok (ctx1, vals) =>
      if vals.length == f.parameters.length then
        match exec fuel f.body (.mk [] ((f.parameters.map Prod.fst).zip vals) recv (some ctx1)) with
        | .error e => .error e
        | .ok (ctx2, res) =>
          match ctx2.parent with
          | some p => .ok (p, res)
          | none => .error .nilPanic
      else .error .arityMismatch

end

/-! ## AST and lowering (`ToCommand` / `ExpressionToCommand`) -/

/-- An AST type annotation (`parser.Type`), as consumed by
`FromASTType`: a named type reference.  An absent annotation is
`Option.none` at the use sites (Go: a nil `parser.Type`). -/
inductive ASTType where
  | named (name : String)
deriving DecidableEq, Repr

/-- Operator tokens relevant to lowering (`lexer.Add`, `lexer.Subtract`,
`lexer.Multiply`, `lexer.Slash`); `other` stands for any operator token
with no case in the lowering switch. -/
inductive OpTok where
  | add
  | subtract
  | multiply
  | slash
  | other (text : String)
deriving DecidableEq, Repr

mutual

/-- The expression AST (`parser.Expr`) as consumed by
`ExpressionToCommand`: `VariableExpr`, `InvocationExpr`,
`StringLiteralExpr`, `IntegerLiteralExpr`, `FloatLiteralExpr`,
`BooleanLiteralExpr`, `BinaryExpr`, `FuncDefExpr` (arguments carry an
optional annotation, Go: a possibly-nil `parser.Type`), `ContextExpr`,
`AssignmentExpr`.  Float literals carry their text only. -/
inductive Expr where
  | varExpr (identifier : String)
  | invocationExpr (invoker : Expr) (args : List Expr)
  | strLit (s : String)
  | intLit (n : Int)
  | floatLit (lit : String)
  | boolLit (b : Bool)
  | binaryExpr (lhs : Expr) (op : OpTok) (rhs : Expr)
  | funcDefExpr (arguments : List (String × Option ASTType))
      (returnType : Option ASTType) (statement : Stmt)
  | contextExpr (receiver : Expr) (member : String)
  | assignmentExpr (identifier : String) (value : Expr)

/-- The statement AST (`parser.Stmt`) as consumed by `ToCommand`:
`VarDefStmt`, `ExpressionStmt`, `BlockStmt`, `IfElseStmt`. -/
inductive Stmt where
  | varDef (identifier : String) (mutable : Bool) (type : Option ASTType) (value : Expr)
  | exprStmt (e : Expr)
  | blockStmt (stmts : List Stmt)
  | ifElseStmt (condition : Expr) (mainBranch : Stmt) (elseBranch : Option Stmt)

end

/-- Lowering failures.  `unsupportedNode` models the
`panic("Could not handle ...")` default (spec: UnsupportedNode);
`nilTypeDeref` models the dereference `*paramType` / `*returnType` of a
nil result of `FromASTType` in the `FuncDefExpr` case, a host
nil-pointer fault. -/
inductive LErr where
  | unsupportedNode
  | nilTypeDeref
deriving DecidableEq, Repr

/-- `FromASTType`.  Modelled from the spec (§4.2, not under `src/`): it
resolves an AST type annotation through the type registry and yields no
type for an absent annotation — the `VarDefStmt` case of `ToCommand`
tests its result against nil before substituting `AnyType`. -/
def FromASTType : Option ASTType → Option Ty
  | none => none
  | some (.named n) => some (.mk n [])

/-- Resolve every parameter's annotation, dereferencing each result as
Go's `*paramType` does: an unresolved (nil) type is a host fault. -/
def lowerParams : List (String × Option ASTType) → Except LErr (List (String × Ty))
  | [] => .ok []
  | (n, t) :: rest =>
    match FromASTType t with
    | none => .error .nilTypeDeref
    | some ty =>
      match lowerParams rest with
      | .error e => .error e
      | .ok ps => .ok ((n, ty) :: ps)

mutual

/-- `ToCommand` (statement lowering) of `interpreter/command.go`. -/
def ToCommand : Stmt → Except LErr Command
  | .varDef identifier mtb t value =>
    -- VarDefStmt: FromASTType, nil test replaced by AnyType.
    let ty := match FromASTType t with
      | none => AnyType
      | some ty => ty
    match ExpressionToCommand value with
    | .error e => .error e
    | .ok valueExpr => .ok (.defineVar identifier mtb ty valueExpr)
  | .exprStmt e => ExpressionToCommand e
  | .blockStmt stmts =>
    match lowerStmts stmts with
    | .error e => .error e
    | .ok commands => .ok (.block commands)
  | .ifElseStmt condition mainBranch elseBranch =>
    match ExpressionToCommand condition with
    | .error e => .error e
    | .ok cond =>
      match ToCommand mainBranch with
      | .error e => .error e
      | .ok ifBranch =>
        match elseBranch with
        | none => .ok (.ifElse cond ifBranch none)
        | some eb =>
          match ToCommand eb with
          | .error e => .error e
          | .ok elseB => .ok (.ifElse cond ifBranch (some elseB))

/-- Lower the statements of a `BlockStmt` in order. -/
def lowerStmts : List Stmt → Except LErr (List Command)
  | [] => .ok []
  | s :: rest =>
    match ToCommand s with
    | .error e => .error e
    | .ok c =>
      match lowerStmts rest with
      | .error e => .error e
      | .ok cs => .ok (c :: cs)

/-- `ExpressionToCommand` of `interpreter/command.go`. -/
def ExpressionToCommand : Expr → Except LErr Command
  | .varExpr identifier => .ok (.varRef identifier)
  | .invocationExpr invoker args =>
    match ExpressionToCommand invoker with
    | .error e => .error e
    | .ok fn =>
      match lowerExprs args with
      | .error e => .error e
      | .ok argCmds => .ok (.invocation fn argCmds)
  | .strLit s => .ok (.literal (.mk StringType (.str s)))
  | .intLit n => .ok (.literal (.mk IntType (.int n)))
  | .floatLit l => .ok (.literal (.mk FloatType (.float l)))
  | .boolLit b => .ok (.literal (.mk BooleanType (.bool b)))
  | .binaryExpr lhs op rhs =>
    match ExpressionToCommand lhs with
    | .error e => .error e
    | .ok lhsCmd =>
      match ExpressionToCommand rhs with
      | .error e => .error e
      | .ok rhsCmd =>
        -- the inner operator switch; an operator with no case falls
        -- through to the "Could not handle" panic
        match op with
        | .add => .ok (.binaryOp lhsCmd .add rhsCmd)
        | .subtract => .ok (.binaryOp lhsCmd .sub rhsCmd)
        | .multiply => .ok (.binaryOp lhsCmd .mul rhsCmd)
        | .slash => .ok (.binaryOp lhsCmd .div rhsCmd)
        | .other _ => .error .unsupportedNode
  | .funcDefExpr arguments returnType statement =>
    -- FuncDefExpr: every parameter type and the return type are
    -- dereferenced unconditionally (`*paramType`, `*returnType`).
    match lowerParams arguments with
    | .error e => .error e
    | .ok params =>
      match FromASTType returnType with
      | none => .error .nilTypeDeref
      | some retTy =>
        match ToCommand statement with
        | .error e => .error e
        | .ok body =>
          .ok (.literal (.mk (FunctionType none (.mk (.mk params retTy) body))
            (.fn (.mk (.mk params retTy) body))))
  | .contextExpr receiver member =>
    match ExpressionToCommand receiver with
    | .error e => .error e
    | .ok contextCmd => .ok (.context contextCmd member)
  | .assignmentExpr identifier value =>
    match ExpressionToCommand value with
    | .error e => .error e
    | .ok valueCmd => .ok (.assignment identifier valueCmd)

/-- Lower an argument list in order. -/
def lowerExprs : List Expr → Except LErr (List Command)
  | [] => .ok []
  | e :: rest =>
    match ExpressionToCommand e with
    | .error e => .error e
    | .ok c =>
      match lowerExprs rest with
      | .error e => .error e
      | .ok cs => .ok (c :: cs)

end

/-! ## Batch driver -/

/-- A whole pipeline failure: a lowering fault or a run-time fault. -/
inductive RunErr where
  | lowerErr (e : LErr)
  | execErr (e : Err)
deriving DecidableEq, Repr

/-- The root context of a batch run: one empty frame, no parent. -/
def rootCtx : Ctx := .mk [] [] none none

/-- The batch execution boundary (`base.Execute`).  Modelled from the
spec (§6, not under `src/`): lower and evaluate each top-level
statement in order against one shared root context, collecting the
ordered per-statement result values; any failure aborts the run. -/
def runStmts (fuel : Nat) : List Stmt → Ctx → Except RunErr (List (Option Value))
  | [], _ => .ok []
  | s :: rest, ctx =>
    match ToCommand s with
    | .error e => .error (.lowerErr e)
    | .ok c =>
      match exec fuel c ctx with
      | .error e => .error (.execErr e)
      | .ok (ctx1, v) =>
        match runStmts fuel rest ctx1 with
        | .error e => .error e
        | .ok vs => .ok (v :: vs)

/-- The statement sequence of the source `"let a = 3\na"`.  Modelled
from the spec: the tokenizer and the parser are not under `src/`; per
the grammar of §4.1 this source is a var-definition (`let`, no `mut`,
no annotation, value `3`) followed by an expression statement reading
`a`. -/
def programLetA3 : List Stmt :=
  [.varDef "a" false none (.intLit 3), .exprStmt (.varExpr "a")]

/-! ## Theorems about the embedded interpreter -/

/-- C1: Batch execution of the two-statement source `"let a = 3\na"`
(tokenize and parse — modelled from the spec — then lower and evaluate
each top-level statement in order against one shared root context)
returns exactly the ordered result sequence `[none, Int 3]`: the
var-definition produces no value and the variable reference produces
the Int value 3. -/
theorem batch_letA3_results :
    runStmts 10 programLetA3 rootCtx = .ok [none, some (IntValue 3)] := by
  rfl

/-- C4: `AssignmentCommand.Exec` checks in order: target resolution
(UndefinedVariable), mutability (ImmutableAssignment) — in both failing
cases for every value sub-command, so the new value is never evaluated —
then value evaluation, the `Accepts` check (TypeMismatch), and finally
the in-place update with no produced value. -/
theorem assignment_check_order
    (fuel : Nat) (n : String) (v : Command) (ctx : Ctx) :
    (findVariable ctx n = none →
      exec (fuel + 1) (.assignment n v) ctx = .error (.undefinedVariable n)) ∧
    (∀ var, findVariable ctx n = some var → var.mutable = false →
      exec (fuel + 1) (.assignment n v) ctx = .error (.immutableAssignment n)) ∧
    (∀ var ctx1 w, findVariable ctx n = some var → var.mutable = true →
      exec fuel v ctx = .ok (ctx1, some w) → var.type.Accepts w.type = false →
      exec (fuel + 1) (.assignment n v) ctx = .error .typeMismatch) ∧
    (∀ var ctx1 w, findVariable ctx n = some var → var.mutable = true →
      exec fuel v ctx = .ok (ctx1, some w) → var.type.Accepts w.type = true →
      exec (fuel + 1) (.assignment n v) ctx = .ok (assignVariable ctx1 n w, none)) := by
  refine ⟨fun h => ?_, fun var h hm => ?_, fun var ctx1 w h hm hv ha => ?_,
    fun var ctx1 w h hm hv ha => ?_⟩
  · simp [exec, h]
  · simp [exec, h, hm]
  · simp [exec, h, hm, hv, ha]
  · simp [exec, h, hm, hv, ha]

/-- C4 witness: each of the four behaviours at a concrete input. -/
theorem assignment_check_order_witness :
    (exec 2 (.assignment "x" (.literal (IntValue 7))) rootCtx
      = .error (.undefinedVariable "x")) ∧
    (exec 2 (.assignment "y" (.literal (IntValue 7)))
        (.mk [("y", ⟨"y", false, IntType, IntValue 1⟩)] [] none none)
      = .error (.immutableAssignment "y")) ∧
    (exec 2 (.assignment "z" (.literal (.mk FloatType (.float "3.5"))))
        (.mk [("z", ⟨"z", true, IntType, IntValue 1⟩)] [] none none)
      = .error .typeMismatch) ∧
    (exec 2 (.assignment "w" (.literal (IntValue 7)))
        (.mk [("w", ⟨"w", true, IntType, IntValue 1⟩)] [] none none)
      = .ok (assignVariable (.mk [("w", ⟨"w", true, IntType, IntValue 1⟩)] [] none none)
          "w" (IntValue 7), none)) :=
  ⟨(assignment_check_order 1 "x" (.literal (IntValue 7)) rootCtx).1 rfl,
   (assignment_check_order 1 "y" (.literal (IntValue 7))
      (.mk [("y", ⟨"y", false, IntType, IntValue 1⟩)] [] none none)).2.1
      ⟨"y", false, IntType, IntValue 1⟩ rfl rfl,
   (assignment_check_order 1 "z" (.literal (.mk FloatType (.float "3.5")))
      (.mk [("z", ⟨"z", true, IntType, IntValue 1⟩)] [] none none)).2.2.1
      ⟨"z", true, IntType, IntValue 1⟩
      (.mk [("z", ⟨"z", true, IntType, IntValue 1⟩)] [] none none)
      (.mk FloatType (.float "3.5")) rfl rfl rfl rfl,
   (assignment_check_order 1 "w" (.literal (IntValue 7))
      (.mk [("w", ⟨"w", true, IntType, IntValue 1⟩)] [] none none)).2.2.2
      ⟨"w", true, IntType, IntValue 1⟩
      (.mk [("w", ⟨"w", true, IntType, IntValue 1⟩)] [] none none)
      (IntValue 7) rfl rfl rfl rfl⟩

/-- C5: `DefineVarCommand.Exec` with a declared type that does not
accept the evaluated value's type fails with TypeMismatch and returns
no context at all (so no variable of that name — or any name — becomes
resolvable: the failure is atomic); on success a new variable is
created in the current frame and no value is produced. -/
theorem defineVar_typeMismatch_atomic
    (fuel : Nat) (n : String) (mtb : Bool) (ty : Ty) (v : Command)
    (ctx ctx1 : Ctx) (w : Value) :
    (exec fuel v ctx = .ok (ctx1, some w) → ty.Accepts w.type = false →
      exec (fuel + 1) (.defineVar n mtb ty v) ctx = .error .typeMismatch
        ∧ ∀ ctx2 res, exec (fuel + 1) (.defineVar n mtb ty v) ctx ≠ .ok (ctx2, res)) ∧
    (exec fuel v ctx = .ok (ctx1, some w) → ty.Accepts w.type = true →
      exec (fuel + 1) (.defineVar n mtb ty v) ctx
        = .ok (defineVariable ctx1 n ⟨n, mtb, ty, w⟩, none)) := by
  refine ⟨fun hv ha => ⟨?_, ?_⟩, fun hv ha => ?_⟩
  · simp [exec, hv, ha]
  · simp [exec, hv, ha]
  · simp [exec, hv, ha]

/-- C5 witness: `let a: Int = 3.5` (the lowered form) fails with
TypeMismatch; `let a: Int = 3` succeeds and defines `a`. -/
theorem defineVar_typeMismatch_atomic_witness :
    (exec 2 (.defineVar "a" false IntType (.literal (.mk FloatType (.float "3.5")))) rootCtx
      = .error .typeMismatch) ∧
    (exec 2 (.defineVar "a" false IntType (.literal (IntValue 3))) rootCtx
      = .ok (defineVariable rootCtx "a" ⟨"a", false, IntType, IntValue 3⟩, none)) :=
  ⟨((defineVar_typeMismatch_atomic 1 "a" false IntType
      (.literal (.mk FloatType (.float "3.5"))) rootCtx rootCtx
      (.mk FloatType (.float "3.5"))).1 rfl rfl).1,
   (defineVar_typeMismatch_atomic 1 "a" false IntType (.literal (IntValue 3))
      rootCtx rootCtx (IntValue 3)).2 rfl rfl⟩

/-- C8: `VariableCommand.Exec` resolves the name first against variable
bindings by walking up the context chain; only if no variable matches
does it consult the active call's parameter bindings (a variable
binding shadows a parameter of the same name); if neither resolves it
fails with UndefinedVariable. -/
theorem varRef_resolution_order
    (fuel : Nat) (n : String) (ctx : Ctx) :
    (∀ var, findVariable ctx n = some var →
      exec (fuel + 1) (.varRef n) ctx = .ok (ctx, some var.value)) ∧
    (∀ v, findVariable ctx n = none → findParameter ctx n = some v →
      exec (fuel + 1) (.varRef n) ctx = .ok (ctx, some v)) ∧
    (findVariable ctx n = none → findParameter ctx n = none →
      exec (fuel + 1) (.varRef n) ctx = .error (.undefinedVariable n)) := by
  refine ⟨fun var h => ?_, fun v h hp => ?_, fun h hp => ?_⟩
  · simp [exec, h]
  · simp [exec, h, hp]
  · simp [exec, h, hp]

/-- C8 witness: a frame binding both a variable `x` (value 1) and a
parameter `x` (value 2) resolves `x` to the variable's value 1 — the
variable shadows the parameter; a parameter-only frame resolves to the
parameter; an empty frame fails with UndefinedVariable. -/
theorem varRef_resolution_order_witness :
    (exec 1 (.varRef "x")
        (.mk [("x", ⟨"x", false, IntType, IntValue 1⟩)] [("x", IntValue 2)] none none)
      = .ok (.mk [("x", ⟨"x", false, IntType, IntValue 1⟩)] [("x", IntValue 2)] none none,
          some (IntValue 1))) ∧
    (exec 1 (.varRef "x") (.mk [] [("x", IntValue 2)] none none)
      = .ok (.mk [] [("x", IntValue 2)] none none, some (IntValue 2))) ∧
    (exec 1 (.varRef "x") rootCtx = .error (.undefinedVariable "x")) :=
  ⟨(varRef_resolution_order 0 "x"
      (.mk [("x", ⟨"x", false, IntType, IntValue 1⟩)] [("x", IntValue 2)] none none)).1
      ⟨"x", false, IntType, IntValue 1⟩ rfl,
   (varRef_resolution_order 0 "x" (.mk [] [("x", IntValue 2)] none none)).2.1
      (IntValue 2) rfl rfl,
   (varRef_resolution_order 0 "x" rootCtx).2.2 rfl rfl⟩

/-- C9: when the value sub-command of a `DefineVarCommand` (or of an
`AssignmentCommand` whose target resolved to a mutable variable)
produces no value, `Exec` dereferences the nil `*Value` to read its
type and the run dies with the host nil-pointer fault (`nilPanic`)
rather than any of the specified error kinds. -/
theorem none_value_nil_panic
    (fuel : Nat) (n : String) (mtb : Bool) (ty : Ty) (v : Command) (ctx ctx1 : Ctx) :
    (exec fuel v ctx = .ok (ctx1, none) →
      exec (fuel + 1) (.defineVar n mtb ty v) ctx = .error .nilPanic) ∧
    (∀ var, findVariable ctx n = some var → var.mutable = true →
      exec fuel v ctx = .ok (ctx1, none) →
      exec (fuel + 1) (.assignment n v) ctx = .error .nilPanic) := by
  refine ⟨fun hv => ?_, fun var h hm hv => ?_⟩
  · simp [exec, hv]
  · simp [exec, h, hm, hv]

/-- C9 witness: `if false => 1` (no else) produces no value; defining
or assigning from it crashes with the nil-pointer fault. -/
theorem none_value_nil_panic_witness :
    (exec 3 (.defineVar "a" false AnyType
        (.ifElse (.literal (.mk BooleanType (.bool false))) (.literal (IntValue 1)) none))
        rootCtx
      = .error .nilPanic) ∧
    (exec 3 (.assignment "m"
        (.ifElse (.literal (.mk BooleanType (.bool false))) (.literal (IntValue 1)) none))
        (.mk [("m", ⟨"m", true, AnyType, IntValue 0⟩)] [] none none)
      = .error .nilPanic) :=
  ⟨(none_value_nil_panic 2 "a" false AnyType
      (.ifElse (.literal (.mk BooleanType (.bool false))) (.literal (IntValue 1)) none)
      rootCtx rootCtx).1 rfl,
   (none_value_nil_panic 2 "m" false AnyType
      (.ifElse (.literal (.mk BooleanType (.bool false))) (.literal (IntValue 1)) none)
      (.mk [("m", ⟨"m", true, AnyType, IntValue 0⟩)] [] none none)
      (.mk [("m", ⟨"m", true, AnyType, IntValue 0⟩)] [] none none)).2
      ⟨"m", true, AnyType, IntValue 0⟩ rfl rfl rfl⟩

/-- C6: `BinaryOperatorCommand.Exec` for `+ - * /` evaluates both
operands strictly, left first (the right operand runs in the state the
left produced); when both payloads are integer-tagged the result is the
`Int`-tagged host-`int64` sum, difference, product, or quotient
(division truncating toward zero, nonzero divisor); when either payload
is not integer-tagged it fails with OperandTypeError. -/
theorem binaryOp_int_arithmetic
    (fuel : Nat) (l r : Command) (ctx ctx1 ctx2 : Ctx) (lv rv : Value)
    (hl : exec fuel l ctx = .ok (ctx1, some lv))
    (hr : exec fuel r ctx1 = .ok (ctx2, some rv)) :
    (∀ a b, lv.payload = .int a → rv.payload = .int b →
      exec (fuel + 1) (.binaryOp l .add r) ctx
        = .ok (ctx2, some (.mk IntType (.int (wrap64 (a + b))))) ∧
      exec (fuel + 1) (.binaryOp l .sub r) ctx
        = .ok (ctx2, some (.mk IntType (.int (wrap64 (a - b))))) ∧
      exec (fuel + 1) (.binaryOp l .mul r) ctx
        = .ok (ctx2, some (.mk IntType (.int (wrap64 (a * b))))) ∧
      (b ≠ 0 → exec (fuel + 1) (.binaryOp l .div r) ctx
        = .ok (ctx2, some (.mk IntType (.int (wrap64 (Int.tdiv a b))))))) ∧
    (∀ op, (∀ a, lv.payload ≠ .int a) →
      exec (fuel + 1) (.binaryOp l op r) ctx = .error .operandTypeError) ∧
    (∀ op a, lv.payload = .int a → (∀ b, rv.payload ≠ .int b) →
      exec (fuel + 1) (.binaryOp l op r) ctx = .error .operandTypeError) := by
  refine ⟨fun a b ha hb => ⟨?_, ?_, ?_, fun hbz => ?_⟩, fun op hni => ?_,
    fun op a ha hnb => ?_⟩
  · simp [exec, hl, hr, ha, hb, applyBinOp]
  · simp [exec, hl, hr, ha, hb, applyBinOp]
  · simp [exec, hl, hr, ha, hb, applyBinOp]
  · simp [exec, hl, hr, ha, hb, applyBinOp, hbz]
  · cases lv with
    | mk lty lp =>
      cases lp with
      | int a => exact absurd rfl (hni a)
      | float s => simp [exec, hl, hr, Value.payload]
      | bool b => simp [exec, hl, hr, Value.payload]
      | str s => simp [exec, hl, hr, Value.payload]
      | fn f => simp [exec, hl, hr, Value.payload]
  · cases rv with
    | mk rty rp =>
      cases rp with
      | int b => exact absurd rfl (hnb b)
      | float s => simp only [exec, hl, hr]; split <;> rfl
      | bool b => simp only [exec, hl, hr]; split <;> rfl
      | str s => simp only [exec, hl, hr]; split <;> rfl
      | fn f => simp only [exec, hl, hr]; split <;> rfl

/-- C6 witness: `2 + 3 → Int 5`, `2 - 3 → Int (-1)`, `2 * 3 → Int 6`,
`7 / 2 → Int 3`, and a boolean left operand fails with
OperandTypeError. -/
theorem binaryOp_int_arithmetic_witness :
    (exec 2 (.binaryOp (.literal (IntValue 2)) .add (.literal (IntValue 3))) rootCtx
      = .ok (rootCtx, some (IntValue 5))) ∧
    (exec 2 (.binaryOp (.literal (IntValue 2)) .sub (.literal (IntValue 3))) rootCtx
      = .ok (rootCtx, some (IntValue (-1)))) ∧
    (exec 2 (.binaryOp (.literal (IntValue 2)) .mul (.literal (IntValue 3))) rootCtx
      = .ok (rootCtx, some (IntValue 6))) ∧
    (exec 2 (.binaryOp (.literal (IntValue 7)) .div (.literal (IntValue 2))) rootCtx
      = .ok (rootCtx, some (IntValue 3))) ∧
    (exec 2 (.binaryOp (.literal (.mk BooleanType (.bool true))) .add
        (.literal (IntValue 3))) rootCtx
      = .error .operandTypeError) := by
  have h23 := binaryOp_int_arithmetic 1 (.literal (IntValue 2)) (.literal (IntValue 3))
    rootCtx rootCtx rootCtx (IntValue 2) (IntValue 3) rfl rfl
  have h72 := binaryOp_int_arithmetic 1 (.literal (IntValue 7)) (.literal (IntValue 2))
    rootCtx rootCtx rootCtx (IntValue 7) (IntValue 2) rfl rfl
  have hb3 := binaryOp_int_arithmetic 1 (.literal (.mk BooleanType (.bool true)))
    (.literal (IntValue 3)) rootCtx rootCtx rootCtx (.mk BooleanType (.bool true))
    (IntValue 3) rfl rfl
  exact ⟨(h23.1 2 3 rfl rfl).1, (h23.1 2 3 rfl rfl).2.1, (h23.1 2 3 rfl rfl).2.2.1,
    (h72.1 7 2 rfl rfl).2.2.2 (by decide),
    hb3.2.1 .add fun a h => nomatch h⟩

/-- C7: `IfElseCommand.Exec` requires the evaluated condition's payload
to be boolean-tagged, failing with ConditionTypeError otherwise; on
`true` only the if-branch runs, on `false` the else branch runs when
present, and a `false` condition with no else branch produces no
value. -/
theorem ifElse_semantics
    (fuel : Nat) (cond ifB : Command) (elseB : Option Command) (ctx ctx1 : Ctx) (cv : Value)
    (hc : exec fuel cond ctx = .ok (ctx1, some cv)) :
    (cv.payload = .bool true →
      exec (fuel + 1) (.ifElse cond ifB elseB) ctx = exec fuel ifB ctx1) ∧
    (∀ e, cv.payload = .bool false → elseB = some e →
      exec (fuel + 1) (.ifElse cond ifB elseB) ctx = exec fuel e ctx1) ∧
    (cv.payload = .bool false → elseB = none →
      exec (fuel + 1) (.ifElse cond ifB elseB) ctx = .ok (ctx1, none)) ∧
    ((∀ b, cv.payload ≠ .bool b) →
      exec (fuel + 1) (.ifElse cond ifB elseB) ctx = .error .conditionTypeError) := by
  refine ⟨fun ht => ?_, fun e hf he => ?_, fun hf he => ?_, fun hnb => ?_⟩
  · simp [exec, hc, ht]
  · simp [exec, hc, hf, he]
  · simp [exec, hc, hf, he]
  · cases cv with
    | mk cty cp =>
      cases cp with
      | bool b => exact absurd rfl (hnb b)
      | int n => simp [exec, hc, Value.payload]
      | float s => simp [exec, hc, Value.payload]
      | str s => simp [exec, hc, Value.payload]
      | fn f => simp [exec, hc, Value.payload]

/-- C7 witness: `if true => 1 else => 2` evaluates to `Int 1`;
`if false => 1` (no else) evaluates to no value; an `Int`-valued
condition fails with ConditionTypeError. -/
theorem ifElse_semantics_witness :
    (exec 2 (.ifElse (.literal (.mk BooleanType (.bool true)))
        (.literal (IntValue 1)) (some (.literal (IntValue 2)))) rootCtx
      = .ok (rootCtx, some (IntValue 1))) ∧
    (exec 2 (.ifElse (.literal (.mk BooleanType (.bool false)))
        (.literal (IntValue 1)) none) rootCtx
      = .ok (rootCtx, none)) ∧
    (exec 2 (.ifElse (.literal (IntValue 3))
        (.literal (IntValue 1)) none) rootCtx
      = .error .conditionTypeError) := by
  have ht := ifElse_semantics 1 (.literal (.mk BooleanType (.bool true)))
    (.literal (IntValue 1)) (some (.literal (IntValue 2))) rootCtx rootCtx
    (.mk BooleanType (.bool true)) rfl
  have hf := ifElse_semantics 1 (.literal (.mk BooleanType (.bool false)))
    (.literal (IntValue 1)) none rootCtx rootCtx
    (.mk BooleanType (.bool false)) rfl
  have hi := ifElse_semantics 1 (.literal (IntValue 3))
    (.literal (IntValue 1)) none rootCtx rootCtx (IntValue 3) rfl
  exact ⟨(ht.1 rfl).trans rfl, hf.2.2.1 rfl rfl,
    hi.2.2.2 fun b h => nomatch h⟩

/-! ## Member dispatch -/

/-- A member function used by the dispatch examples: no parameters,
body yields `Int 99`. -/
def funcF : Function := .mk (.mk [] AnyType) (.literal (IntValue 99))

/-- A user type whose function table registers `funcF` under `"f"`. -/
def tyT : Ty := .mk "T" [("f", funcF)]

/-- A receiver value of type `tyT`. -/
def tval : Value := .mk tyT (.int 7)

/-- A receiver expression with an observable side effect: it increments
the mutable counter `c` and then yields the `tyT` receiver value. -/
def countingReceiver : Command :=
  .block [.assignment "c" (.binaryOp (.varRef "c") .add (.literal (IntValue 1))),
    .literal tval]

/-- Root context for the counting example: one mutable `c = 0`. -/
def countingCtx : Ctx := .mk [("c", ⟨"c", true, IntType, IntValue 0⟩)] [] none none

/-- The value of `c` in the context a successful evaluation returns. -/
def counterAfter (r : Res) : Option Value :=
  match r with
  | .ok (ctx, _) => (findVariable ctx "c").map Variable.value
  | .error _ => none

/-- C2 counterexample: invoking the member access
`countingReceiver.f()` leaves the counter at 3, not 1 — the receiver
sub-expression is executed three times (once inside the member-access
evaluation of the invoked expression and twice more in
`InvocationCommand.Exec`), refuting "evaluates the receiver
sub-expression exactly once". -/
theorem invocation_member_receiver_thrice :
    counterAfter (exec 10 (.invocation (.context countingReceiver "f") []) countingCtx)
        = some (IntValue 3)
      ∧ some (IntValue 3) ≠ some (IntValue 1) := by
  constructor
  · rfl
  · simp [IntValue]

/-- C2 (amended): for an invocation whose invoked expression is a
member access, the receiver sub-expression is evaluated three times
(state threads through all three), the member is looked up by name in
the receiver value's type function table (twice: once per the first two
receiver evaluations, each failing UndefinedMember if the name is
absent), and the function found by the second lookup is invoked with
the third receiver evaluation's result bound as receiver plus the
argument list. -/
theorem invocation_member_dispatch
    (fuel : Nat) (recvCmd : Command) (member : String) (args : List Command)
    (ctx ctx1 ctx2 : Ctx) (r1 r2 : Value) (f1 : Function)
    (h1 : exec fuel recvCmd ctx = .ok (ctx1, some r1))
    (l1 : List.lookup member r1.type.functions = some f1)
    (h2 : exec (fuel + 1) recvCmd ctx1 = .ok (ctx2, some r2)) :
    (∀ f2 ctx3 r3, List.lookup member r2.type.functions = some f2 →
      exec (fuel + 1) recvCmd ctx2 = .ok (ctx3, r3) →
      exec (fuel + 2) (.invocation (.context recvCmd member) args) ctx
        = invoke (fuel + 1) f2 ctx3 r3 args) ∧
    (List.lookup member r2.type.functions = none →
      exec (fuel + 2) (.invocation (.context recvCmd member) args) ctx
        = .error (.undefinedMember member r2.type.name)) := by
  refine ⟨fun f2 ctx3 r3 l2 h3 => ?_, fun l2 => ?_⟩
  · simp [exec, h1, l1, h2, l2, h3, Value.payload]
  · simp [exec, h1, l1, h2, l2, Value.payload]

/-- C2 witness: with a pure literal receiver of type `tyT`, all three
receiver evaluations succeed identically and `receiver.f()` reduces to
invoking `funcF` with the receiver bound. -/
theorem invocation_member_dispatch_witness :
    exec 3 (.invocation (.context (.literal tval) "f") []) countingCtx
      = invoke 2 funcF countingCtx (some tval) [] :=
  (invocation_member_dispatch 1 (.literal tval) "f" [] countingCtx countingCtx
    countingCtx tval tval funcF rfl rfl rfl).1 funcF countingCtx (some tval) rfl rfl

/-- C10: a value produced by evaluating a member access on its own
wraps only the resolved function — the `Value` type has no receiver
component, so nothing of the receiver is attached; and an invocation
whose invoked expression is not syntactically a member access (here: a
variable reference holding such a value) invokes the function with no
receiver bound (`none`). -/
theorem member_access_value_unbound
    (fuel : Nat) (recvCmd : Command) (member name : String) (args : List Command)
    (ctx ctx1 : Ctx) (r : Value) (f : Function) :
    (exec fuel recvCmd ctx = .ok (ctx1, some r) →
      List.lookup member r.type.functions = some f →
      exec (fuel + 1) (.context recvCmd member) ctx
        = .ok (ctx1, some (.mk (FunctionType (some member) f) (.fn f)))) ∧
    (∀ var ty, findVariable ctx name = some var → var.value = .mk ty (.fn f) →
      exec (fuel + 2) (.invocation (.varRef name) args) ctx
        = invoke (fuel + 1) f ctx none args) := by
  refine ⟨fun hr hl => ?_, fun var ty hv hval => ?_⟩
  · simp [exec, hr, hl]
  · simp [exec, hv, hval, Value.payload]

/-- C10 witness: reading the member-access result `tval.f` yields a
bare function value; a variable `g` storing that value, invoked as
`g()`, reduces to invoking `funcF` with receiver `none`. -/
theorem member_access_value_unbound_witness :
    (exec 2 (.context (.literal tval) "f") rootCtx
      = .ok (rootCtx, some (.mk (FunctionType (some "f") funcF) (.fn funcF)))) ∧
    (exec 3 (.invocation (.varRef "g") [])
        (.mk [("g", ⟨"g", false, FunctionType none funcF, .mk (FunctionType none funcF) (.fn funcF)⟩)] [] none none)
      = invoke 2 funcF
          (.mk [("g", ⟨"g", false, FunctionType none funcF, .mk (FunctionType none funcF) (.fn funcF)⟩)] [] none none)
          none []) :=
  ⟨(member_access_value_unbound 1 (.literal tval) "f" "g" [] rootCtx rootCtx
      tval funcF).1 rfl rfl,
   (member_access_value_unbound 1 (.literal tval) "f" "g" []
      (.mk [("g", ⟨"g", false, FunctionType none funcF, .mk (FunctionType none funcF) (.fn funcF)⟩)] [] none none)
      rootCtx tval funcF).2
      ⟨"g", false, FunctionType none funcF, .mk (FunctionType none funcF) (.fn funcF)⟩
      (FunctionType none funcF) rfl rfl⟩

/-- C3 counterexample: lowering a function literal with one
unannotated parameter does not succeed — `ExpressionToCommand`
dereferences the nil result of `FromASTType` for the parameter
(`*paramType`) and crashes, refuting "lowering succeeds for every
function-literal parameter without an annotation". -/
theorem lowering_unannotated_param_crash :
    ExpressionToCommand (.funcDefExpr [("x", none)] (some (.named "Unit"))
      (.exprStmt (.intLit 1))) = .error .nilTypeDeref := by
  rfl

/-- C3 (amended): for a var-definition an absent type annotation
resolves to the universal `Any` type and lowering succeeds, but for a
function-literal parameter lowering dereferences the unresolved (nil)
type of an unannotated parameter and crashes instead of resolving it
to `Any`. -/
theorem lowering_type_annotation_default
    (n : String) (mtb : Bool) (value : Expr) (cv : Command) :
    (ExpressionToCommand value = .ok cv →
      ToCommand (.varDef n mtb none value) = .ok (.defineVar n mtb AnyType cv)) ∧
    (∀ p rest ret body, ExpressionToCommand
        (.funcDefExpr ((p, none) :: rest) ret body) = .error .nilTypeDeref) := by
  constructor
  · intro hv
    have hunfold : ToCommand (.varDef n mtb none value)
        = (match ExpressionToCommand value with
           | .error e => .error e
           | .ok v => .ok (.defineVar n mtb AnyType v)) := rfl
    rw [hunfold, hv]
  · intro p rest ret body
    rfl

/-- C3 witness: `let a = 3` lowers to a DefineVar command whose
declared type is `Any`; a one-parameter unannotated function literal
fails to lower. -/
theorem lowering_type_annotation_default_witness :
    (ToCommand (.varDef "a" false none (.intLit 3))
      = .ok (.defineVar "a" false AnyType (.literal (.mk IntType (.int 3))))) ∧
    (ExpressionToCommand (.funcDefExpr [("y", none)] none (.exprStmt (.intLit 2)))
      = .error .nilTypeDeref) :=
  ⟨(lowering_type_annotation_default "a" false (.intLit 3)
      (.literal (.mk IntType (.int 3)))).1 rfl,
   (lowering_type_annotation_default "a" false (.intLit 3)
      (.literal (.mk IntType (.int 3)))).2 "y" [] none (.exprStmt (.intLit 2))⟩

end Elara
